import Mathlib

/-!
Verification of the perception-and-action automation engine:
shallow embedding of the element detector, the multi-OCR manager,
the intelligent retry manager, the action history and the screen
capture boundary, with theorems settling the specified properties.

Floating-point values of the source are modelled as rationals,
machine integers as `Int`/`Nat`, and fallible external boundary
calls (OCR backends, screenshots) as `Option`- or outcome-valued
inputs, so the embedded functions are total and executable.
-/

/-! ## Definitions: element detector (`element_detector.py`) -/

/-- Bounding box of a candidate element, as the `position` dict built by the
detection strategies: x, y, width, height. The `center_x`/`center_y` entries
are derived values that play no role in overlap computation, so they are
omitted. -/
structure Pos where
  x : Int
  y : Int
  width : Int
  height : Int
deriving DecidableEq, Repr

/-- A candidate element as far as deduplication is concerned: its bounding
box and its confidence. -/
structure Elem where
  pos : Pos
  confidence : ℚ
deriving DecidableEq, Repr

/-- The `_calculate_overlap` method: intersection-over-union of two boxes;
0 when they do not properly intersect or the union is not positive. -/
def calculate_overlap (pos1 pos2 : Pos) : ℚ :=
  let x1 := max pos1.x pos2.x
  let y1 := max pos1.y pos2.y
  let x2 := min (pos1.x + pos1.width) (pos2.x + pos2.width)
  let y2 := min (pos1.y + pos1.height) (pos2.y + pos2.height)
  if x2 ≤ x1 ∨ y2 ≤ y1 then 0
  else
    let intersection : ℚ := ((x2 - x1 : Int) : ℚ) * ((y2 - y1 : Int) : ℚ)
    let area1 : ℚ := ((pos1.width * pos1.height : Int) : ℚ)
    let area2 : ℚ := ((pos2.width * pos2.height : Int) : ℚ)
    let union : ℚ := area1 + area2 - intersection
    if 0 < union then intersection / union else 0

/-- One step of the `_deduplicate_elements` loop body: scan the current
unique list for the first retained element overlapping the incoming one
above 0.7; if none exists the incoming element is appended; otherwise, when
the incoming confidence is strictly higher, the first overlapping entry is
removed (Python `list.remove` deletes the first equal entry) and the
incoming element appended, and the scan breaks either way without checking
the remaining retained elements. -/
def dedupInsert (acc : List Elem) (e : Elem) : List Elem :=
  match acc.find? (fun ex => decide ((7 : ℚ)/10 < calculate_overlap e.pos ex.pos)) with
  | none => acc ++ [e]
  | some ex => if ex.confidence < e.confidence then acc.erase ex ++ [e] else acc

/-- The `_deduplicate_elements` method: fold `dedupInsert` over the
candidate list, starting from the empty unique list. -/
def deduplicate_elements (elements : List Elem) : List Elem :=
  elements.foldl dedupInsert []

/-- Concrete candidate A for the dedup analysis. -/
def cexA : Elem := ⟨⟨0, 0, 100, 100⟩, 1/2⟩

/-- Concrete candidate B for the dedup analysis. -/
def cexB : Elem := ⟨⟨0, 20, 100, 100⟩, 1/2⟩

/-- Concrete candidate C for the dedup analysis: overlaps both A and B above
0.7 while A and B overlap each other only at 2/3. -/
def cexC : Elem := ⟨⟨0, 0, 100, 120⟩, 9/10⟩

/-! ## Definitions: detector confidence scores -/

/-- The `_calculate_button_score` method. The image-derived features (empty
region flag, edge-pixel density of the region, grey-level standard
deviation) are inputs from the vision boundary; the score adds 0.3 when the
edge density lies in (0.1, 0.5), 0.3 when the standard deviation is below
30, 0.4 when the width is in (20, 200) and the height in (15, 60), and is
clamped to at most 1. -/
def calculate_button_score (regionEmpty : Bool) (edge_density std_dev : ℚ)
    (w h : Int) : ℚ :=
  if regionEmpty then 0
  else
    let score1 : ℚ := if 1/10 < edge_density ∧ edge_density < 1/2 then 3/10 else 0
    let score2 : ℚ := score1 + (if std_dev < 30 then 3/10 else 0)
    let score3 : ℚ := score2 + (if 20 < w ∧ w < 200 ∧ 15 < h ∧ h < 60 then 2/5 else 0)
    min 1 score3

/-- The `_calculate_input_score` method: 0.4 when the width/height ratio lies
in (2, 15), 0.3 when a four-corner contour was found in the region, 0.3 when
the mean grey intensity exceeds 200, clamped to at most 1. -/
def calculate_input_score (regionEmpty : Bool) (aspect : ℚ)
    (has_rect_contour : Bool) (mean_intensity : ℚ) : ℚ :=
  if regionEmpty then 0
  else
    let score1 : ℚ := if 2 < aspect ∧ aspect < 15 then 2/5 else 0
    let score2 : ℚ := score1 + (if has_rect_contour then 3/10 else 0)
    let score3 : ℚ := score2 + (if 200 < mean_intensity then 3/10 else 0)
    min 1 score3

/-- Confidence attached by `_find_button_by_text`: the OCR match score
scaled by 0.9. -/
def text_button_confidence (match_score : ℚ) : ℚ := match_score * (9/10)

/-- Confidence attached by `_find_input_by_label`: the OCR match score
scaled by 0.8. -/
def label_input_confidence (match_score : ℚ) : ℚ := match_score * (8/10)

/-- Confidence attached by `_find_button_by_template`: the raw normalized
cross-correlation score at a retained location (locations are retained only
when the raw score is at least the 0.7 threshold). -/
def template_confidence (raw_score : ℚ) : ℚ := raw_score

/-- Constant confidence attached by `_find_links`. -/
def link_confidence : ℚ := 7/10

/-- Constant confidence attached by `_find_icons`. -/
def icon_confidence : ℚ := 6/10

/-- Constant confidence attached by `_find_menu_items`. -/
def menu_item_confidence : ℚ := 7/10

/-! ## Definitions: multi-OCR manager (`multi_ocr_manager.py`) -/

/-- Python default `str.strip` whitespace characters (ASCII subset). -/
def pyIsSpace (c : Char) : Bool :=
  c = ' ' || c = '\t' || c = '\n' || c = '\r' || c = '\x0b' || c = '\x0c'

/-- Python `str.strip()` on a character list: drop whitespace from both
ends. -/
def pyStrip (l : List Char) : List Char :=
  ((l.dropWhile pyIsSpace).reverse.dropWhile pyIsSpace).reverse

/-- Per-engine statistics entry (`engine_stats[name]` dict: success, total,
avg_time). -/
structure EngineStats where
  success : Nat
  total : Nat
  avg_time : ℚ
deriving DecidableEq, Repr

/-- Outcome of one `_extract_with_engine` call: the engine either raises or
returns a (possibly empty) text. -/
inductive EngineOutcome where
  | exn
  | ok (text : List Char)
deriving DecidableEq, Repr

/-- The record returned by `extract_text`. -/
structure ExtractResult where
  text : List Char
  confidence : ℚ
  engine_used : Option String
  execution_time : ℚ
  success : Bool
deriving DecidableEq, Repr

/-- The exact record `extract_text` returns when every engine has failed. -/
def failExtractResult : ExtractResult :=
  { text := [], confidence := 0, engine_used := none, execution_time := 0, success := false }

/-- The `_estimate_confidence` method: 0 for empty text, otherwise an
engine base score (0.85/0.80/0.75/0.60, default 0.50) adjusted by +0.05 for
stripped length above 10, −0.10 for stripped length below 3, +0.05 when the
text has an alphanumeric character, clamped to at most 1.  Python computes
`len(text.strip())` for both length tests. -/
def estimate_confidence (text : List Char) (engine_name : String) : ℚ :=
  if text = [] ∨ (pyStrip text).length = 0 then 0
  else
    let base1 : ℚ :=
      if engine_name = "paddleocr" then 85/100
      else if engine_name = "easyocr" then 80/100
      else if engine_name = "tesseract" then 75/100
      else if engine_name = "builtin" then 60/100
      else 50/100
    let text_length := (pyStrip text).length
    let base2 : ℚ :=
      if 10 < text_length then base1 + 5/100
      else if text_length < 3 then base1 - 10/100
      else base1
    let base3 : ℚ := if text.any Char.isAlphanum then base2 + 5/100 else base2
    min base3 1

/-- The `_update_engine_stats` method: when the engine has a stats entry,
increment total, increment success when the flag is set, and update the
running-average latency with the new total. -/
def update_engine_stats (statKeys : List String) (stats : String → EngineStats)
    (engine_name : String) (succ : Bool) (execution_time : ℚ) : String → EngineStats :=
  if engine_name ∈ statKeys then
    fun n =>
      if n = engine_name then
        let s := stats engine_name
        { success := if succ then s.success + 1 else s.success
          total := s.total + 1
          avg_time :=
            if s.total + 1 = 1 then execution_time
            else (s.avg_time * ((s.total : ℚ)) + execution_time) / (((s.total : ℚ)) + 1) }
      else stats n
  else stats

/-- The engine-order construction at the top of `extract_text`: the
preferred engine first when supplied and available, then the remaining
fallback order with the preferred engine filtered out; otherwise the plain
fallback order. -/
def engines_to_try (enginesAvail fallback_order : List String)
    (prefer_engine : Option String) : List String :=
  match prefer_engine with
  | some p =>
    if p ∈ enginesAvail then p :: fallback_order.filter (fun e => e ≠ p)
    else fallback_order
  | none => fallback_order

/-- The engine loop of `extract_text`.  Engines not in the available map are
skipped.  A raising engine records a failed attempt and the loop continues;
a returning engine records a successful attempt FIRST and only then tests
the text for emptiness, returning the success record on non-empty stripped
text and continuing otherwise.  Besides the result and the final stats, the
embedding returns the chronological log of stats updates (engine name and
success flag), which captures in which order attempts were recorded. -/
def extract_text_loop (enginesAvail statKeys : List String)
    (behavior : String → EngineOutcome) (times : String → ℚ) :
    List String → (String → EngineStats) →
    ExtractResult × (String → EngineStats) × List (String × Bool)
  | [], stats => (failExtractResult, stats, [])
  | engine_name :: rest, stats =>
    if engine_name ∈ enginesAvail then
      match behavior engine_name with
      | .exn =>
        let stats1 := update_engine_stats statKeys stats engine_name false (times engine_name)
        let p := extract_text_loop enginesAvail statKeys behavior times rest stats1
        (p.1, p.2.1, (engine_name, false) :: p.2.2)
      | .ok txt =>
        let stats1 := update_engine_stats statKeys stats engine_name true (times engine_name)
        if txt ≠ [] ∧ 0 < (pyStrip txt).length then
          ({ text := pyStrip txt, confidence := estimate_confidence txt engine_name,
             engine_used := some engine_name, execution_time := times engine_name,
             success := true }, stats1, [(engine_name, true)])
        else
          let p := extract_text_loop enginesAvail statKeys behavior times rest stats1
          (p.1, p.2.1, (engine_name, true) :: p.2.2)
    else
      extract_text_loop enginesAvail statKeys behavior times rest stats

/-- The `extract_text` method: run the engine loop over the constructed
engine order.  The frame is abstracted by `behavior` (what each engine
returns on it) and `times` (the measured call latencies). -/
def extract_text (enginesAvail statKeys fallback_order : List String)
    (prefer_engine : Option String) (behavior : String → EngineOutcome)
    (times : String → ℚ) (stats : String → EngineStats) :
    ExtractResult × (String → EngineStats) × List (String × Bool) :=
  extract_text_loop enginesAvail statKeys behavior times
    (engines_to_try enginesAvail fallback_order prefer_engine) stats

/-- Whether a given engine fails in the loop sense: unavailable, raising, or
returning text that is empty once stripped. -/
def engineFailsB (enginesAvail : List String) (behavior : String → EngineOutcome)
    (e : String) : Bool :=
  if e ∈ enginesAvail then
    match behavior e with
    | .exn => true
    | .ok t => !(decide (t ≠ []) && decide (0 < (pyStrip t).length))
  else true

/-- The stats-update event an engine contributes when tried: none when it is
skipped as unavailable, otherwise its name with the recorded success flag
(false exactly when the engine raised). -/
def engineEvent (enginesAvail : List String) (behavior : String → EngineOutcome)
    (e : String) : Option (String × Bool) :=
  if e ∈ enginesAvail then
    match behavior e with
    | .exn => some (e, false)
    | .ok _ => some (e, true)
  else none

/-- Stats state after a run through a list of engines that all fail:
each available engine contributes one `_update_engine_stats` call. -/
def statsAfterFailures (enginesAvail statKeys : List String)
    (behavior : String → EngineOutcome) (times : String → ℚ)
    (pre : List String) (stats : String → EngineStats) : String → EngineStats :=
  pre.foldl (fun st e =>
    if e ∈ enginesAvail then
      update_engine_stats statKeys st e
        (match behavior e with | .exn => false | .ok _ => true) (times e)
    else st) stats

/-- Concrete engine behavior: engine A returns empty text without raising,
every other engine returns the text "hello". -/
def cexOCRBehavior : String → EngineOutcome := fun n =>
  if n = "A" then .ok [] else .ok "hello".toList

/-- Concrete engine behavior: engine A raises, every other engine returns
the text "hi". -/
def cexC4Behavior : String → EngineOutcome := fun n =>
  if n = "A" then .exn else .ok "hi".toList

/-! ## Definitions: intelligent retry manager (`intelligent_retry_manager.py`) -/

/-- The `FailureType` enum. -/
inductive FailureType where
  | element_not_found
  | click_failed
  | input_failed
  | ocr_failed
  | timeout
  | network_error
  | permission_denied
  | unknown
deriving DecidableEq, Repr

/-- The `OperationResult` dataclass restricted to the fields the retry loop
and classifier read: success, message, optional failure tag. -/
structure OperationResult where
  success : Bool
  message : List Char
  failure_type : Option FailureType
deriving DecidableEq, Repr

/-- Outcome of invoking the wrapped operation once: a returned
`OperationResult` or a raised exception with its message. -/
inductive OpOutcome where
  | ok (r : OperationResult)
  | exn (msg : List Char)
deriving DecidableEq, Repr

/-- The result the retry loop records for an outcome: the returned result
itself, or the UNKNOWN-tagged failure result the except branch builds. -/
def resultOfOutcome : OpOutcome → OperationResult
  | .ok r => r
  | .exn msg => ⟨false, "执行异常: ".toList ++ msg, some .unknown⟩

/-- Whether the attempt at index k succeeds. -/
def outcomeSucceeds (op : Nat → OpOutcome) (k : Nat) : Prop :=
  (resultOfOutcome (op k)).success = true

/-- The attempt loop of `execute_with_retry` from a given attempt index:
return at once on success; otherwise stop when the index has reached
max_retries, else recurse on the next index.  The second component counts
how many times the operation was invoked. -/
def retryAux (op : Nat → OpOutcome) (maxRetries attempt : Nat) :
    OperationResult × Nat :=
  let r := resultOfOutcome (op attempt)
  if r.success then (r, 1)
  else if h : maxRetries ≤ attempt then (r, 1)
  else
    let p := retryAux op maxRetries (attempt + 1)
    (p.1, p.2 + 1)
termination_by maxRetries - attempt
decreasing_by omega

/-- The `execute_with_retry` method: run the attempt loop from attempt 0.
The wrapped operation is abstracted by the sequence of outcomes it would
produce on successive invocations (the context mutation between attempts is
a deterministic function of the attempt history, so indexing outcomes by
the attempt number loses no generality). -/
def execute_with_retry (op : Nat → OpOutcome) (maxRetries : Nat) :
    OperationResult × Nat :=
  retryAux op maxRetries 0

/-- Concrete operation: raises on attempt 0, fails with a click error on
attempt 1, succeeds from attempt 2 on. -/
def demoRetryOp : Nat → OpOutcome := fun k =>
  if k = 0 then .exn "boom".toList
  else if k = 1 then .ok ⟨false, "click rejected".toList, some .click_failed⟩
  else .ok ⟨true, "ok".toList, none⟩

/-- Boolean test that `needle` is an initial segment of `hay`. -/
def startsWithL : List Char → List Char → Bool
  | [], _ => true
  | _ :: _, [] => false
  | p :: ps, c :: cs => p == c && startsWithL ps cs

/-- Python `needle in hay` substring containment on character lists. -/
def containsSub (needle : List Char) : List Char → Bool
  | [] => needle.isEmpty
  | c :: t => startsWithL needle (c :: t) || containsSub needle t

/-- Python `str.lower()` restricted to ASCII letters, as `message.lower()`
in the classifier. -/
def lowerL (l : List Char) : List Char := l.map Char.toLower

/-- The `_analyze_failure` method: prefer the explicit failure tag when the
result carries one (every enum member is truthy in Python, including
UNKNOWN); otherwise match substrings of the lowercased message in the fixed
priority order of the source. -/
def analyze_failure (r : OperationResult) : FailureType :=
  match r.failure_type with
  | some ft => ft
  | none =>
    let m := lowerL r.message
    if containsSub "not found".toList m || containsSub "element".toList m then
      .element_not_found
    else if containsSub "click".toList m || containsSub "mouse".toList m then
      .click_failed
    else if containsSub "ocr".toList m || containsSub "text".toList m ||
        containsSub "recognition".toList m then
      .ocr_failed
    else if containsSub "timeout".toList m || containsSub "time".toList m then
      .timeout
    else if containsSub "network".toList m || containsSub "connection".toList m then
      .network_error
    else if containsSub "permission".toList m || containsSub "access".toList m then
      .permission_denied
    else
      .unknown

/-- The `type_multipliers` table of `_calculate_wait_time`, with the
`dict.get` default of 1.0 for the types not listed (INPUT_FAILED). -/
def type_multiplier : FailureType → ℚ
  | .element_not_found => 1/2
  | .click_failed => 3/10
  | .ocr_failed => 1
  | .timeout => 2
  | .network_error => 3
  | .permission_denied => 3/2
  | _ => 1

/-- `self.base_wait_time` of the manager. -/
def base_wait_time : ℚ := 1

/-- `self.max_wait_time` of the manager. -/
def max_wait_time : ℚ := 30

/-- The `_calculate_wait_time` method: exponential base wait times the
failure-type multiplier times the jitter drawn from [0.8, 1.2], capped at
the maximum wait. -/
def calculate_wait_time (attempt : Nat) (ft : FailureType) (jitter : ℚ) : ℚ :=
  let base_wait := base_wait_time * 2 ^ attempt
  let wait := base_wait * type_multiplier ft * jitter
  min wait max_wait_time

/-! ## Definitions: action system history (`action_system.py`) -/

/-- One operation history record as built by `_record_action`. -/
structure OperationRecord where
  action_type : String
  success : Bool
  message : String
  execution_time : ℚ
  timestamp : ℚ
deriving DecidableEq, Repr

/-- The `_record_action` history update: append the record, then when the
length exceeds 1000 keep only the slice of the most recent 500 entries
(Python `history[-500:]`). -/
def record_action (action_history : List OperationRecord) (record : OperationRecord) :
    List OperationRecord :=
  let h := action_history ++ [record]
  if 1000 < h.length then h.drop (h.length - 500) else h

/-- Concrete history record. -/
def demoRecord : OperationRecord :=
  { action_type := "click", success := true, message := "ok",
    execution_time := 1/10, timestamp := 0 }

/-! ## Definitions: screen capture boundary (`screen_capture.py`) -/

/-- A captured pixel frame, abstracted to its dimensions. -/
structure Frame where
  width : Int
  height : Int
deriving DecidableEq, Repr

/-- The `capture_region` method.  The OS boundary is abstracted: the screen
size query may fail (`none`), and the screenshot-and-convert-and-save chain
is a single `Option`-valued call; any raised exception maps to a `none`
result.  The boolean output records whether the external screenshot call was
issued at all.  Coordinates are validated before any screenshot: negative
origin or a region extending past the screen returns failure immediately. -/
def capture_region (visionAvailable : Bool) (screen_size : Option (Int × Int))
    (screenshot : Int → Int → Int → Int → Option Frame)
    (x y width height : Int) : Option Frame × Bool :=
  if visionAvailable then
    match screen_size with
    | none => (none, false)
    | some (screen_width, screen_height) =>
      if x < 0 ∨ y < 0 ∨ screen_width < x + width ∨ screen_height < y + height then
        (none, false)
      else
        match screenshot x y width height with
        | none => (none, true)
        | some f => (some f, true)
  else (none, false)

/-! ## Theorems: element detector deduplication (claim C1) -/

/-- The overlap measure of `_calculate_overlap` is symmetric in its two
boxes, as intersection-over-union should be. -/
theorem calculate_overlap_comm (p q : Pos) :
    calculate_overlap p q = calculate_overlap q p := by
  unfold calculate_overlap
  rw [max_comm p.x q.x, max_comm p.y q.y,
    min_comm (p.x + p.width) (q.x + q.width),
    min_comm (p.y + p.height) (q.y + q.height)]
  dsimp only
  split_ifs with h h1 h2 h3 <;> first | rfl | linarith | (congr 1; ring)

/-- Claim C1 counterexample: on the candidate list [A, B, C] above, C
replaces A (IoU 5/6, higher confidence) but is never compared against the
remaining retained element B, so `_deduplicate_elements` returns [B, C]
although that pair has IoU 5/6 > 0.7: the claimed invariant fails. -/
theorem C1_dedup_iou_cex :
    deduplicate_elements [cexA, cexB, cexC] = [cexB, cexC] ∧
    (7 : ℚ)/10 < calculate_overlap cexB.pos cexC.pos := by
  have hBA : calculate_overlap cexB.pos cexA.pos = 2/3 := by
    simp only [calculate_overlap, cexA, cexB]; norm_num
  have hCA : calculate_overlap cexC.pos cexA.pos = 5/6 := by
    simp only [calculate_overlap, cexA, cexC]; norm_num
  have hBC : calculate_overlap cexB.pos cexC.pos = 5/6 := by
    simp only [calculate_overlap, cexB, cexC]; norm_num
  refine ⟨?_, by rw [hBC]; norm_num⟩
  have h1 : dedupInsert [] cexA = [cexA] := by
    simp [dedupInsert]
  have h2 : dedupInsert [cexA] cexB = [cexA, cexB] := by
    simp [dedupInsert, List.find?, hBA]
    norm_num
  have h3 : dedupInsert [cexA, cexB] cexC = [cexB, cexC] := by
    simp [dedupInsert, List.find?, hCA]
    norm_num [cexA, cexC, List.erase]
  simp [deduplicate_elements, List.foldl, h1, h2, h3]

/-- Helper for the amended claim C1: folding `dedupInsert` over candidates
of non-increasing confidence preserves the pairwise-IoU-below-threshold
invariant, because a replacement (whose re-check the code skips) can then
never fire. -/
theorem foldl_dedup_pairwise (l : List Elem) :
    ∀ acc : List Elem,
      acc.Pairwise (fun a b => calculate_overlap a.pos b.pos ≤ 7/10) →
      (∀ e ∈ l, ∀ ex ∈ acc, e.confidence ≤ ex.confidence) →
      l.Pairwise (fun a b => b.confidence ≤ a.confidence) →
      (l.foldl dedupInsert acc).Pairwise
        (fun a b => calculate_overlap a.pos b.pos ≤ 7/10) := by
  induction l with
  | nil => intro acc hacc _ _; simpa using hacc
  | cons e rest ih =>
    intro acc hacc hconf hsorted
    rw [List.foldl_cons]
    rcases hfind : acc.find?
        (fun ex => decide ((7 : ℚ)/10 < calculate_overlap e.pos ex.pos)) with _ | ex
    · -- no retained element overlaps e above 0.7: e is appended
      have hnone : ∀ ex ∈ acc, ¬ ((7 : ℚ)/10 < calculate_overlap e.pos ex.pos) := by
        intro ex hex
        have := List.find?_eq_none.mp hfind ex hex
        simpa using this
      have hstep : dedupInsert acc e = acc ++ [e] := by
        simp [dedupInsert, hfind]
      rw [hstep]
      apply ih
      · rw [List.pairwise_append]
        refine ⟨hacc, List.pairwise_singleton _ _, ?_⟩
        intro a ha b hb
        rw [List.mem_singleton] at hb
        subst hb
        rw [calculate_overlap_comm]
        exact le_of_not_lt (hnone a ha)
      · intro f hf ex hex
        rcases List.mem_append.mp hex with hex | hex
        · exact hconf f (List.mem_cons_of_mem _ hf) ex hex
        · rw [List.mem_singleton] at hex
          subst hex
          exact (List.pairwise_cons.mp hsorted).1 f hf
      · exact (List.pairwise_cons.mp hsorted).2
    · -- a retained element overlaps e; e has lower-or-equal confidence, so drop e
      have hex_mem : ex ∈ acc := List.mem_of_find?_eq_some hfind
      have hle : e.confidence ≤ ex.confidence :=
        hconf e (List.mem_cons_self _ _) ex hex_mem
      have hstep : dedupInsert acc e = acc := by
        simp [dedupInsert, hfind, not_lt.mpr hle]
      rw [hstep]
      apply ih acc hacc
      · intro f hf ex2 hex2
        exact hconf f (List.mem_cons_of_mem _ hf) ex2 hex2
      · exact (List.pairwise_cons.mp hsorted).2

/-- Claim C1, amended: when the candidate list is ordered by non-increasing
confidence, `_deduplicate_elements` returns a list in which no two elements
have pairwise IoU above 0.7 (the higher-confidence element of any
overlapping pair, being earlier, is the one retained).  For general input
order the invariant fails, as `C1_dedup_iou_cex` shows: a replacement can
leave two retained elements overlapping above 0.7. -/
theorem C1_dedup_iou_sorted (l : List Elem)
    (hs : l.Pairwise (fun a b => b.confidence ≤ a.confidence)) :
    (deduplicate_elements l).Pairwise
      (fun a b => calculate_overlap a.pos b.pos ≤ 7/10 ∧
        calculate_overlap b.pos a.pos ≤ 7/10) := by
  have h := foldl_dedup_pairwise l [] (List.Pairwise.nil) (by simp) hs
  exact h.imp (fun hab => ⟨hab, by rw [calculate_overlap_comm]; exact hab⟩)

/-- Witness for `C1_dedup_iou_sorted` at the concrete sorted candidate list
[C, A] (confidences 9/10 ≥ 1/2). -/
theorem C1_dedup_iou_sorted_witness :
    (deduplicate_elements [cexC, cexA]).Pairwise
      (fun a b => calculate_overlap a.pos b.pos ≤ 7/10 ∧
        calculate_overlap b.pos a.pos ≤ 7/10) :=
  C1_dedup_iou_sorted [cexC, cexA] (by simp [cexA, cexC]; norm_num)

/-! ## Theorems: retry loop bounds (claim C2) -/

/-- Specification of the attempt loop from any starting index: the
invocation count is bounded by the remaining budget; a successful result is
the one of the first succeeding attempt, reached with exactly that many
invocations; a failed result means every attempt up to max_retries was
invoked and failed and the result is the last recorded failure. -/
theorem retryAux_spec (op : Nat → OpOutcome) (maxRetries : Nat) :
    ∀ fuel attempt, attempt ≤ maxRetries → maxRetries - attempt = fuel →
      (retryAux op maxRetries attempt).2 ≤ maxRetries - attempt + 1 ∧
      ((retryAux op maxRetries attempt).1.success = true →
        ∃ k, attempt ≤ k ∧ k ≤ maxRetries ∧
          attempt + (retryAux op maxRetries attempt).2 = k + 1 ∧
          resultOfOutcome (op k) = (retryAux op maxRetries attempt).1 ∧
          outcomeSucceeds op k ∧
          ∀ j, attempt ≤ j → j < k → ¬ outcomeSucceeds op j) ∧
      ((retryAux op maxRetries attempt).1.success = false →
        (retryAux op maxRetries attempt).2 = maxRetries - attempt + 1 ∧
        (retryAux op maxRetries attempt).1 = resultOfOutcome (op maxRetries) ∧
        ∀ k, attempt ≤ k → k ≤ maxRetries → ¬ outcomeSucceeds op k) := by
  intro fuel
  induction fuel with
  | zero =>
    intro attempt hle hfuel
    have heq : attempt = maxRetries := by omega
    subst heq
    rw [retryAux]
    by_cases hs : (resultOfOutcome (op attempt)).success
    · simp only [hs, if_true]
      refine ⟨by omega, ?_, ?_⟩
      · intro _
        exact ⟨attempt, le_refl _, le_refl _, by omega, rfl, hs, by omega⟩
      · intro hfalse
        simp [hs] at hfalse
    · simp only [hs, if_false, Bool.false_eq_true, dif_pos (le_refl attempt)]
      refine ⟨by omega, ?_, ?_⟩
      · intro htrue
        exact htrue.elim
      · intro _
        refine ⟨by omega, trivial, ?_⟩
        intro k hk1 hk2
        have : k = attempt := by omega
        subst this
        simpa [outcomeSucceeds] using hs
  | succ n ih =>
    intro attempt hle hfuel
    have hlt : attempt < maxRetries := by omega
    rw [retryAux]
    by_cases hs : (resultOfOutcome (op attempt)).success
    · simp only [hs, if_true]
      refine ⟨by omega, ?_, ?_⟩
      · intro _
        exact ⟨attempt, le_refl _, by omega, by omega, rfl, hs, by omega⟩
      · intro hfalse
        simp [hs] at hfalse
    · have hnot : ¬ (maxRetries ≤ attempt) := by omega
      simp only [hs, if_false, Bool.false_eq_true, dif_neg hnot]
      obtain ⟨ihc, ihs, ihf⟩ := ih (attempt + 1) (by omega) (by omega)
      refine ⟨by omega, ?_, ?_⟩
      · intro htrue
        obtain ⟨k, hk1, hk2, hk3, hk4, hk5, hk6⟩ := ihs htrue
        refine ⟨k, by omega, hk2, by omega, hk4, hk5, ?_⟩
        intro j hj1 hj2
        rcases Nat.eq_or_lt_of_le hj1 with hj | hj
        · subst hj
          simpa [outcomeSucceeds] using hs
        · exact hk6 j (by omega) hj2
      · intro hfalse
        obtain ⟨hc, hres, hall⟩ := ihf hfalse
        refine ⟨by omega, hres, ?_⟩
        intro k hk1 hk2
        rcases Nat.eq_or_lt_of_le hk1 with hk | hk
        · subst hk
          simpa [outcomeSucceeds] using hs
        · exact hall k (by omega) hk2

/-- Claim C2: for every operation and retry budget, `execute_with_retry`
invokes the operation at most max_retries + 1 times and terminates (the
embedding is a total function); a successful return is the result of the
first succeeding attempt, reached by stopping immediately at it; a failed
return means all max_retries + 1 attempts were made, none succeeded, and the
returned value is the last recorded failure. -/
theorem C2_retry_bounded (op : Nat → OpOutcome) (maxRetries : Nat) :
    (execute_with_retry op maxRetries).2 ≤ maxRetries + 1 ∧
    ((execute_with_retry op maxRetries).1.success = true →
      ∃ k, k ≤ maxRetries ∧ (execute_with_retry op maxRetries).2 = k + 1 ∧
        resultOfOutcome (op k) = (execute_with_retry op maxRetries).1 ∧
        outcomeSucceeds op k ∧ ∀ j < k, ¬ outcomeSucceeds op j) ∧
    ((execute_with_retry op maxRetries).1.success = false →
      (execute_with_retry op maxRetries).2 = maxRetries + 1 ∧
      (execute_with_retry op maxRetries).1 = resultOfOutcome (op maxRetries) ∧
      ∀ k ≤ maxRetries, ¬ outcomeSucceeds op k) := by
  obtain ⟨hc, hsucc, hfail⟩ := retryAux_spec op maxRetries (maxRetries - 0) 0 (by omega) rfl
  refine ⟨by simpa [execute_with_retry] using hc, ?_, ?_⟩
  · intro htrue
    obtain ⟨k, _, hk2, hk3, hk4, hk5, hk6⟩ := hsucc htrue
    exact ⟨k, hk2, by simpa [execute_with_retry] using hk3, hk4, hk5,
      fun j hj => hk6 j (by omega) hj⟩
  · intro hfalse
    obtain ⟨hc2, hres, hall⟩ := hfail hfalse
    exact ⟨by simpa [execute_with_retry] using hc2, hres,
      fun k hk => hall k (by omega) hk⟩

/-- Witness for `C2_retry_bounded` at the concrete operation `demoRetryOp`
with the default budget max_retries = 5. -/
theorem C2_retry_bounded_witness :
    (execute_with_retry demoRetryOp 5).2 ≤ 5 + 1 :=
  (C2_retry_bounded demoRetryOp 5).1

/-! ## Theorems: failure classification (claim C5) -/

/-- Claim C5 counterexample: the untagged failed result with message
"text timeout" contains the substring "timeout", yet `_analyze_failure`
classifies it as OCR_FAILED, because the "ocr"/"text"/"recognition" branch
has higher priority than the "timeout"/"time" branch. -/
theorem C5_timeout_class_cex :
    analyze_failure ⟨false, "text timeout".toList, none⟩ = .ocr_failed ∧
    containsSub "timeout".toList (lowerL "text timeout".toList) = true ∧
    analyze_failure ⟨false, "text timeout".toList, none⟩ ≠ .timeout := by
  refine ⟨by decide, by decide, by decide⟩

/-- Claim C5, amended: for a failed result carrying no explicit failure tag,
a lowercased message containing "timeout" never classifies as UNKNOWN, and
it classifies as TIMEOUT exactly when none of the higher-priority substrings
("not found", "element", "click", "mouse", "ocr", "text", "recognition")
occur.  A result with an explicit tag returns that tag unchanged, so the
original unconditional claim fails (see `C5_timeout_class_cex`). -/
theorem C5_timeout_class (r : OperationResult)
    (hft : r.failure_type = none)
    (htime : containsSub "timeout".toList (lowerL r.message) = true) :
    (analyze_failure r ≠ .unknown) ∧
    (containsSub "not found".toList (lowerL r.message) = false →
     containsSub "element".toList (lowerL r.message) = false →
     containsSub "click".toList (lowerL r.message) = false →
     containsSub "mouse".toList (lowerL r.message) = false →
     containsSub "ocr".toList (lowerL r.message) = false →
     containsSub "text".toList (lowerL r.message) = false →
     containsSub "recognition".toList (lowerL r.message) = false →
     analyze_failure r = .timeout) := by
  constructor
  · unfold analyze_failure
    rw [hft]
    dsimp only
    split_ifs <;> simp_all
  · intro h1 h2 h3 h4 h5 h6 h7
    unfold analyze_failure
    rw [hft]
    dsimp only
    rw [h1, h2, h3, h4, h5, h6, h7, htime]
    simp

/-- Witness for `C5_timeout_class` at the concrete untagged result with
message "operation timeout". -/
theorem C5_timeout_class_witness :
    analyze_failure ⟨false, "operation timeout".toList, none⟩ ≠ .unknown ∧
    analyze_failure ⟨false, "operation timeout".toList, none⟩ = .timeout := by
  have h := C5_timeout_class ⟨false, "operation timeout".toList, none⟩ rfl (by decide)
  exact ⟨h.1, h.2 (by decide) (by decide) (by decide) (by decide) (by decide)
    (by decide) (by decide)⟩

/-! ## Theorems: backoff growth (claim C6) -/

/-- Claim C6: under FailureType.TIMEOUT the computed backoff equals
min(30, 1·2^n·2·jitter); for any jitters drawn from [0.8, 1.2] the wait of
attempt n+1 strictly exceeds the wait of attempt n while the latter is below
the 30-second cap, and once the cap is reached the wait stays exactly 30. -/
theorem C6_timeout_backoff (n : Nat) (j j2 : ℚ)
    (hj1 : 4/5 ≤ j) (hj2 : j ≤ 6/5) (hj3 : 4/5 ≤ j2) (hj4 : j2 ≤ 6/5) :
    calculate_wait_time n .timeout j = min 30 (1 * 2 ^ n * 2 * j) ∧
    (calculate_wait_time n .timeout j < 30 →
      calculate_wait_time n .timeout j < calculate_wait_time (n + 1) .timeout j2) ∧
    (calculate_wait_time n .timeout j = 30 →
      calculate_wait_time (n + 1) .timeout j2 = 30) := by
  have hp : (0 : ℚ) < 2 ^ n := pow_pos (by norm_num) n
  have hj4' : j2 ≤ 6/5 := hj4
  have hu : calculate_wait_time n .timeout j = min (2 ^ n * 2 * j) 30 := by
    unfold calculate_wait_time base_wait_time max_wait_time type_multiplier
    ring_nf
  have hu2 : calculate_wait_time (n + 1) .timeout j2 = min (2 ^ (n + 1) * 2 * j2) 30 := by
    unfold calculate_wait_time base_wait_time max_wait_time type_multiplier
    ring_nf
  have hgrow : (4 : ℚ)/3 * (2 ^ n * 2 * j) ≤ 2 ^ (n + 1) * 2 * j2 := by
    rw [pow_succ]
    nlinarith
  have hposu : (0 : ℚ) < 2 ^ n * 2 * j := by nlinarith
  refine ⟨by rw [hu, min_comm]; ring_nf, ?_, ?_⟩
  · intro hlt
    rw [hu] at hlt ⊢
    rw [hu2]
    have hublt : 2 ^ n * 2 * j < 30 := by
      by_contra hge
      push_neg at hge
      rw [min_eq_right (by linarith)] at hlt
      linarith
    rw [min_eq_left (by linarith)]
    rcases le_or_lt (2 ^ (n + 1) * 2 * j2) 30 with hc | hc
    · rw [min_eq_left hc]
      nlinarith
    · rw [min_eq_right (by linarith)]
      linarith
  · intro heq
    rw [hu] at heq
    have h30 : (30 : ℚ) ≤ 2 ^ n * 2 * j := by
      rcases le_or_lt (2 ^ n * 2 * j) 30 with hc | hc
      · rw [min_eq_left hc] at heq
        linarith [heq.ge]
      · linarith
    rw [hu2, min_eq_right]
    nlinarith

/-- Witness for `C6_timeout_backoff` at attempt 0 with both jitters 1. -/
theorem C6_timeout_backoff_witness :
    calculate_wait_time 0 .timeout 1 = min 30 (1 * 2 ^ 0 * 2 * 1) := by
  have h := C6_timeout_backoff 0 1 1 (by norm_num) (by norm_num) (by norm_num) (by norm_num)
  exact h.1

/-! ## Theorems: OCR extraction (claims C3, C4, C10) -/

/-- Helper: specification of the engine loop result, over any engine order:
success holds exactly when the returned text is non-empty, and a failed run
returns exactly the all-engines-failed record. -/
theorem extract_loop_success_spec (enginesAvail statKeys : List String)
    (behavior : String → EngineOutcome) (times : String → ℚ) :
    ∀ (order : List String) (stats : String → EngineStats),
      ((extract_text_loop enginesAvail statKeys behavior times order stats).1.success = true ↔
        (extract_text_loop enginesAvail statKeys behavior times order stats).1.text ≠ []) ∧
      ((extract_text_loop enginesAvail statKeys behavior times order stats).1.success = false →
        (extract_text_loop enginesAvail statKeys behavior times order stats).1 =
          failExtractResult) := by
  intro order
  induction order with
  | nil =>
    intro stats
    constructor
    · simp [extract_text_loop, failExtractResult]
    · intro _; rfl
  | cons e rest ih =>
    intro stats
    rw [extract_text_loop]
    by_cases he : e ∈ enginesAvail
    · simp only [he, if_true]
      rcases hb : behavior e with _ | txt
      · exact ih _
      · dsimp only
        by_cases ht : txt ≠ [] ∧ 0 < (pyStrip txt).length
        · rw [if_pos ht]
          refine ⟨⟨fun _ => List.ne_nil_of_length_pos ht.2, fun _ => rfl⟩,
            fun hfalse => by simp at hfalse⟩
        · rw [if_neg ht]
          exact ih _
    · simp only [he, if_false]
      exact ih _

/-- Claim C10: for every frame (abstracted by the engine behaviors),
`extract_text` returns success = true exactly when the returned text field
is non-empty, and whenever it fails the returned record is exactly
text "", confidence 0.0, engine_used None, execution_time 0,
success false. -/
theorem C10_success_iff_text (enginesAvail statKeys fallback_order : List String)
    (prefer_engine : Option String) (behavior : String → EngineOutcome)
    (times : String → ℚ) (stats : String → EngineStats) :
    ((extract_text enginesAvail statKeys fallback_order prefer_engine behavior times
        stats).1.success = true ↔
      (extract_text enginesAvail statKeys fallback_order prefer_engine behavior times
        stats).1.text ≠ []) ∧
    ((extract_text enginesAvail statKeys fallback_order prefer_engine behavior times
        stats).1.success = false →
      (extract_text enginesAvail statKeys fallback_order prefer_engine behavior times
        stats).1 = failExtractResult) :=
  extract_loop_success_spec enginesAvail statKeys behavior times
    (engines_to_try enginesAvail fallback_order prefer_engine) stats

/-- Helper: `_update_engine_stats` leaves every other engine's entry
unchanged. -/
theorem update_engine_stats_other (statKeys : List String) (stats : String → EngineStats)
    (engine_name : String) (succ : Bool) (t : ℚ) (a : String) (ha : a ≠ engine_name) :
    update_engine_stats statKeys stats engine_name succ t a = stats a := by
  unfold update_engine_stats
  by_cases h : engine_name ∈ statKeys
  · rw [if_pos h]
    dsimp only
    rw [if_neg ha]
  · rw [if_neg h]

/-- Helper: the entry `_update_engine_stats` writes for a tracked engine:
total incremented, success incremented exactly when the flag is set, average
latency recomputed with the new total. -/
theorem update_engine_stats_self (statKeys : List String) (stats : String → EngineStats)
    (a : String) (succ : Bool) (t : ℚ) (h : a ∈ statKeys) :
    update_engine_stats statKeys stats a succ t a =
      { success := if succ then (stats a).success + 1 else (stats a).success
        total := (stats a).total + 1
        avg_time :=
          if (stats a).total + 1 = 1 then t
          else ((stats a).avg_time * (((stats a).total : ℚ)) + t) /
            ((((stats a).total : ℚ)) + 1) } := by
  unfold update_engine_stats
  rw [if_pos h]
  dsimp only
  rw [if_pos rfl]

/-- Helper: a run through engines that all fail leaves the entry of an
engine not among them unchanged. -/
theorem statsAfterFailures_untouched (enginesAvail statKeys : List String)
    (behavior : String → EngineOutcome) (times : String → ℚ) :
    ∀ (pre : List String) (stats : String → EngineStats) (a : String), a ∉ pre →
      statsAfterFailures enginesAvail statKeys behavior times pre stats a = stats a := by
  intro pre
  induction pre with
  | nil => intro stats a _; rfl
  | cons e rest ih =>
    intro stats a ha
    have hne : a ≠ e := fun h => ha (h ▸ List.mem_cons_self e rest)
    have hrest : a ∉ rest := fun h => ha (List.mem_cons_of_mem _ h)
    unfold statsAfterFailures at *
    rw [List.foldl_cons]
    rw [ih _ a hrest]
    split_ifs with h
    · exact update_engine_stats_other _ _ _ _ _ _ hne
    · rfl

/-- Helper: the engine loop never touches the stats entry of an engine that
does not occur in the order it runs through. -/
theorem extract_loop_untouched (enginesAvail statKeys : List String)
    (behavior : String → EngineOutcome) (times : String → ℚ) :
    ∀ (order : List String) (stats : String → EngineStats) (a : String), a ∉ order →
      (extract_text_loop enginesAvail statKeys behavior times order stats).2.1 a =
        stats a := by
  intro order
  induction order with
  | nil => intro stats a _; rfl
  | cons e rest ih =>
    intro stats a ha
    have hne : a ≠ e := fun h => ha (h ▸ List.mem_cons_self e rest)
    have hrest : a ∉ rest := fun h => ha (List.mem_cons_of_mem _ h)
    rw [extract_text_loop]
    by_cases he : e ∈ enginesAvail
    · simp only [he, if_true]
      rcases hb : behavior e with _ | txt
      · dsimp only
        rw [ih _ a hrest, update_engine_stats_other _ _ _ _ _ _ hne]
      · dsimp only
        by_cases ht : txt ≠ [] ∧ 0 < (pyStrip txt).length
        · rw [if_pos ht]
          exact update_engine_stats_other _ _ _ _ _ _ hne
        · rw [if_neg ht]
          rw [ih _ a hrest, update_engine_stats_other _ _ _ _ _ _ hne]
    · simp only [he, if_false]
      exact ih _ a hrest

/-- Helper: running the loop on `pre ++ rest` where every engine of `pre`
fails equals running it on `rest` from the stats accumulated over `pre`,
with the event log of `pre` prepended to the log of the rest-run. -/
theorem extract_loop_fail_split (enginesAvail statKeys : List String)
    (behavior : String → EngineOutcome) (times : String → ℚ) :
    ∀ (pre rest : List String) (stats : String → EngineStats),
      (∀ e ∈ pre, engineFailsB enginesAvail behavior e = true) →
      extract_text_loop enginesAvail statKeys behavior times (pre ++ rest) stats =
        ((extract_text_loop enginesAvail statKeys behavior times rest
            (statsAfterFailures enginesAvail statKeys behavior times pre stats)).1,
         (extract_text_loop enginesAvail statKeys behavior times rest
            (statsAfterFailures enginesAvail statKeys behavior times pre stats)).2.1,
         pre.filterMap (engineEvent enginesAvail behavior) ++
           (extract_text_loop enginesAvail statKeys behavior times rest
              (statsAfterFailures enginesAvail statKeys behavior times pre stats)).2.2) := by
  intro pre
  induction pre with
  | nil =>
    intro rest stats _
    simp [statsAfterFailures]
  | cons e prerest ih =>
    intro rest stats hfail
    have hef := hfail e (List.mem_cons_self _ _)
    have hfail2 : ∀ x ∈ prerest, engineFailsB enginesAvail behavior x = true :=
      fun x hx => hfail x (List.mem_cons_of_mem _ hx)
    have hsa : statsAfterFailures enginesAvail statKeys behavior times (e :: prerest) stats =
        statsAfterFailures enginesAvail statKeys behavior times prerest
          (if e ∈ enginesAvail then
            update_engine_stats statKeys stats e
              (match behavior e with | .exn => false | .ok _ => true) (times e)
          else stats) := by
      unfold statsAfterFailures
      rw [List.foldl_cons]
    rw [List.cons_append, extract_text_loop]
    by_cases he : e ∈ enginesAvail
    · simp only [he, if_true]
      rcases hb : behavior e with _ | txt
      · dsimp only
        rw [ih rest _ hfail2]
        rw [hsa, hb]
        simp only [he, if_true]
        rw [List.filterMap_cons]
        simp [engineEvent, he, hb]
      · dsimp only
        have htf : ¬(txt ≠ [] ∧ 0 < (pyStrip txt).length) := by
          unfold engineFailsB at hef
          rw [if_pos he, hb] at hef
          intro hcon
          simp [hcon.1, hcon.2] at hef
        rw [if_neg htf]
        rw [ih rest _ hfail2]
        rw [hsa, hb]
        simp only [he, if_true]
        rw [List.filterMap_cons]
        simp [engineEvent, he, hb]
    · simp only [he, if_false]
      rw [ih rest _ hfail2]
      rw [hsa]
      simp only [he, if_false]
      rw [List.filterMap_cons]
      simp [engineEvent, he]

/-- Claim C3 counterexample: with engine order [A, B] where A returns empty
text without raising and B returns "hello", the final stats entry of A has
total = 1 AND success = 1: the empty-result attempt was recorded as a
success, not as a failure as the claim states — the code marks the stats
success flag before testing the text for emptiness. -/
theorem C3_engine_stats_cex :
    (((extract_text ["A", "B"] ["A", "B"] ["A", "B"] none cexOCRBehavior (fun _ => 1)
        (fun _ => ⟨0, 0, 0⟩)).2.1 "A").total = 1) ∧
    (((extract_text ["A", "B"] ["A", "B"] ["A", "B"] none cexOCRBehavior (fun _ => 1)
        (fun _ => ⟨0, 0, 0⟩)).2.1 "A").success = 1) := by
  exact ⟨by decide, by decide⟩

/-- Claim C3, amended: when the engine order splits as pre ++ [a] ++ post
with every engine of pre failing and a tracked and reached exactly once,
then after `extract_text` the entry of a has total incremented by one, and
success incremented exactly when a returned without raising — including when
the returned text was empty.  So a raising engine is recorded as a failure
before the next engine is tried (its event precedes the rest of the log),
but an empty non-raising result is recorded as a success, contradicting the
original claim (see `C3_engine_stats_cex`). -/
theorem C3_engine_stats_amended (enginesAvail statKeys fallback_order : List String)
    (prefer_engine : Option String) (behavior : String → EngineOutcome)
    (times : String → ℚ) (pre post : List String) (a : String)
    (stats : String → EngineStats)
    (horder : engines_to_try enginesAvail fallback_order prefer_engine = pre ++ a :: post)
    (hfail : ∀ e ∈ pre, engineFailsB enginesAvail behavior e = true)
    (ha_avail : a ∈ enginesAvail) (ha_keys : a ∈ statKeys)
    (ha_pre : a ∉ pre) (ha_post : a ∉ post) :
    (((extract_text enginesAvail statKeys fallback_order prefer_engine behavior times
        stats).2.1 a).total = (stats a).total + 1) ∧
    (((extract_text enginesAvail statKeys fallback_order prefer_engine behavior times
        stats).2.1 a).success = (stats a).success +
          (match behavior a with | .exn => 0 | .ok _ => 1)) ∧
    (∃ tl, (extract_text enginesAvail statKeys fallback_order prefer_engine behavior times
        stats).2.2 =
      pre.filterMap (engineEvent enginesAvail behavior) ++
        (a, match behavior a with | .exn => false | .ok _ => true) :: tl) := by
  unfold extract_text
  rw [horder]
  rw [extract_loop_fail_split enginesAvail statKeys behavior times pre (a :: post) stats hfail]
  have hs0 : statsAfterFailures enginesAvail statKeys behavior times pre stats a = stats a :=
    statsAfterFailures_untouched enginesAvail statKeys behavior times pre stats a ha_pre
  rw [extract_text_loop]
  simp only [ha_avail, if_true]
  rcases hb : behavior a with _ | txt
  · dsimp only
    rw [extract_loop_untouched enginesAvail statKeys behavior times post _ a ha_post]
    rw [update_engine_stats_self statKeys _ a false (times a) ha_keys, hs0]
    exact ⟨rfl, rfl, _, rfl⟩
  · dsimp only
    by_cases ht : txt ≠ [] ∧ 0 < (pyStrip txt).length
    · rw [if_pos ht]
      dsimp only
      rw [update_engine_stats_self statKeys _ a true (times a) ha_keys, hs0]
      exact ⟨rfl, rfl, [], rfl⟩
    · rw [if_neg ht]
      rw [extract_loop_untouched enginesAvail statKeys behavior times post _ a ha_post]
      rw [update_engine_stats_self statKeys _ a true (times a) ha_keys, hs0]
      exact ⟨rfl, rfl, _, rfl⟩

/-- Witness for `C3_engine_stats_amended`: engine order [A, B], A fails with
empty text, so B is the reached engine with pre = [A]. -/
theorem C3_engine_stats_amended_witness :
    (((extract_text ["A", "B"] ["A", "B"] ["A", "B"] none cexOCRBehavior (fun _ => 1)
        (fun _ => ⟨0, 0, 0⟩)).2.1 "B").total = (0 : Nat) + 1) ∧
    (((extract_text ["A", "B"] ["A", "B"] ["A", "B"] none cexOCRBehavior (fun _ => 1)
        (fun _ => ⟨0, 0, 0⟩)).2.1 "B").success = (0 : Nat) +
          (match cexOCRBehavior "B" with | .exn => 0 | .ok _ => 1)) ∧
    (∃ tl, (extract_text ["A", "B"] ["A", "B"] ["A", "B"] none cexOCRBehavior (fun _ => 1)
        (fun _ => ⟨0, 0, 0⟩)).2.2 =
      List.filterMap (engineEvent ["A", "B"] cexOCRBehavior) ["A"] ++
        ("B", match cexOCRBehavior "B" with | .exn => false | .ok _ => true) :: tl) :=
  C3_engine_stats_amended ["A", "B"] ["A", "B"] ["A", "B"] none cexOCRBehavior (fun _ => 1)
    ["A"] [] "B" (fun _ => ⟨0, 0, 0⟩) rfl
    (by intro e he; fin_cases he; decide)
    (by decide) (by decide) (by decide) (by decide)

/-- Claim C4: with engine order [A, B, C], when A fails (raises or returns
empty text) and B returns non-empty text, `extract_text` returns
engine_used = "B" with success = true, the final stats entry of A has its
attempt recorded (total incremented), and the update-event log is exactly
[A-event, B-event] — A's attempt was recorded before B was invoked. -/
theorem C4_fallback_order (behavior : String → EngineOutcome) (times : String → ℚ)
    (stats : String → EngineStats) (tB : List Char)
    (hA : engineFailsB ["A", "B", "C"] behavior "A" = true)
    (hB : behavior "B" = .ok tB) (hB1 : tB ≠ []) (hB2 : 0 < (pyStrip tB).length) :
    ((extract_text ["A", "B", "C"] ["A", "B", "C"] ["A", "B", "C"] none behavior times
        stats).1.engine_used = some "B") ∧
    ((extract_text ["A", "B", "C"] ["A", "B", "C"] ["A", "B", "C"] none behavior times
        stats).1.success = true) ∧
    (((extract_text ["A", "B", "C"] ["A", "B", "C"] ["A", "B", "C"] none behavior times
        stats).2.1 "A").total = (stats "A").total + 1) ∧
    (∃ fA, (extract_text ["A", "B", "C"] ["A", "B", "C"] ["A", "B", "C"] none behavior
        times stats).2.2 = [("A", fA), ("B", true)]) := by
  have hconv : extract_text ["A", "B", "C"] ["A", "B", "C"] ["A", "B", "C"] none behavior
      times stats =
      extract_text_loop ["A", "B", "C"] ["A", "B", "C"] behavior times
        ["A", "B", "C"] stats := rfl
  rw [hconv]
  have hsplit := extract_loop_fail_split ["A", "B", "C"] ["A", "B", "C"] behavior times
    ["A"] ["B", "C"] stats (by intro e he; fin_cases he; exact hA)
  have hlist : (["A"] ++ ["B", "C"] : List String) = ["A", "B", "C"] := rfl
  rw [hlist] at hsplit
  rw [hsplit]
  have hBm : ("B" : String) ∈ (["A", "B", "C"] : List String) := by decide
  rw [extract_text_loop]
  simp only [hBm, if_true]
  rw [hB]
  dsimp only
  rw [if_pos ⟨hB1, hB2⟩]
  dsimp only
  have hsf : statsAfterFailures ["A", "B", "C"] ["A", "B", "C"] behavior times ["A"] stats =
      update_engine_stats ["A", "B", "C"] stats "A"
        (match behavior "A" with | .exn => false | .ok _ => true) (times "A") := by
    unfold statsAfterFailures
    rw [List.foldl_cons, List.foldl_nil,
      if_pos (by decide : ("A" : String) ∈ (["A", "B", "C"] : List String))]
  have hstatsA : update_engine_stats ["A", "B", "C"]
      (statsAfterFailures ["A", "B", "C"] ["A", "B", "C"] behavior times ["A"] stats)
      "B" true (times "B") "A" = update_engine_stats ["A", "B", "C"] stats "A"
        (match behavior "A" with | .exn => false | .ok _ => true) (times "A") "A" := by
    rw [update_engine_stats_other _ _ _ _ _ _ (by decide : ("A" : String) ≠ "B"), hsf]
  have hev : ∃ fA, engineEvent ["A", "B", "C"] behavior "A" = some ("A", fA) := by
    unfold engineEvent
    rw [if_pos (by decide : ("A" : String) ∈ (["A", "B", "C"] : List String))]
    rcases behavior "A" with _ | t
    · exact ⟨false, rfl⟩
    · exact ⟨true, rfl⟩
  obtain ⟨fA, hev⟩ := hev
  refine ⟨rfl, rfl, ?_, ⟨fA, ?_⟩⟩
  · rw [hstatsA,
      update_engine_stats_self _ _ _ _ _
        (by decide : ("A" : String) ∈ (["A", "B", "C"] : List String))]
  · simp [List.filterMap_cons, hev]

/-- Witness for `C4_fallback_order`: A raises and B returns "hi". -/
theorem C4_fallback_order_witness :
    ((extract_text ["A", "B", "C"] ["A", "B", "C"] ["A", "B", "C"] none cexC4Behavior
        (fun _ => 1) (fun _ => ⟨0, 0, 0⟩)).1.engine_used = some "B") ∧
    ((extract_text ["A", "B", "C"] ["A", "B", "C"] ["A", "B", "C"] none cexC4Behavior
        (fun _ => 1) (fun _ => ⟨0, 0, 0⟩)).1.success = true) ∧
    (((extract_text ["A", "B", "C"] ["A", "B", "C"] ["A", "B", "C"] none cexC4Behavior
        (fun _ => 1) (fun _ => ⟨0, 0, 0⟩)).2.1 "A").total =
      ((fun (_ : String) => (⟨0, 0, 0⟩ : EngineStats)) "A").total + 1) ∧
    (∃ fA, (extract_text ["A", "B", "C"] ["A", "B", "C"] ["A", "B", "C"] none cexC4Behavior
        (fun _ => 1) (fun _ => ⟨0, 0, 0⟩)).2.2 = [("A", fA), ("B", true)]) :=
  C4_fallback_order cexC4Behavior (fun _ => 1) (fun _ => ⟨0, 0, 0⟩) "hi".toList
    (by decide) (by decide) (by decide) (by decide)

/-! ## Theorems: confidence bounds (claim C7) -/

/-- Helper: `_estimate_confidence` always lies in [0, 1]. -/
theorem estimate_confidence_bounds (text : List Char) (engine_name : String) :
    0 ≤ estimate_confidence text engine_name ∧ estimate_confidence text engine_name ≤ 1 := by
  unfold estimate_confidence
  by_cases h : text = [] ∨ (pyStrip text).length = 0
  · rw [if_pos h]; norm_num
  · rw [if_neg h]
    dsimp only
    constructor
    · apply le_min _ (by norm_num)
      split_ifs <;> norm_num
    · exact min_le_right _ _

/-- Helper: `_calculate_button_score` always lies in [0, 1]. -/
theorem calculate_button_score_bounds (regionEmpty : Bool) (edge_density std_dev : ℚ)
    (w h : Int) :
    0 ≤ calculate_button_score regionEmpty edge_density std_dev w h ∧
      calculate_button_score regionEmpty edge_density std_dev w h ≤ 1 := by
  unfold calculate_button_score
  by_cases hre : regionEmpty
  · rw [if_pos hre]; norm_num
  · rw [if_neg hre]
    dsimp only
    constructor
    · apply le_min (by norm_num)
      split_ifs <;> norm_num
    · exact min_le_left _ _

/-- Helper: `_calculate_input_score` always lies in [0, 1]. -/
theorem calculate_input_score_bounds (regionEmpty : Bool) (aspect : ℚ)
    (has_rect_contour : Bool) (mean_intensity : ℚ) :
    0 ≤ calculate_input_score regionEmpty aspect has_rect_contour mean_intensity ∧
      calculate_input_score regionEmpty aspect has_rect_contour mean_intensity ≤ 1 := by
  unfold calculate_input_score
  by_cases hre : regionEmpty
  · rw [if_pos hre]; norm_num
  · rw [if_neg hre]
    dsimp only
    constructor
    · apply le_min (by norm_num)
      split_ifs <;> norm_num
    · exact min_le_left _ _

/-- Claim C7: every confidence the pipeline produces lies in [0, 1]: the
OCR confidence estimate and the button/input feature scores unconditionally;
the text and label strategies given that the OCR match score they scale lies
in [0, 1] (exact match 1.0, containment |target|/|text| with target inside
text, fuzzy similarity in [0, 1]); the template strategy given that the
normalized cross-correlation value lies in [−1, 1] and passed the 0.7
retention threshold; and the constant link/icon/menu-item confidences. -/
theorem C7_confidence_bounds (text : List Char) (engine_name : String)
    (regionEmpty regionEmpty2 has_rect_contour : Bool)
    (edge_density std_dev aspect mean_intensity match_score raw_score : ℚ)
    (w h : Int)
    (hms1 : 0 ≤ match_score) (hms2 : match_score ≤ 1)
    (hraw2 : raw_score ≤ 1) :
    (0 ≤ estimate_confidence text engine_name ∧ estimate_confidence text engine_name ≤ 1) ∧
    (0 ≤ calculate_button_score regionEmpty edge_density std_dev w h ∧
      calculate_button_score regionEmpty edge_density std_dev w h ≤ 1) ∧
    (0 ≤ calculate_input_score regionEmpty2 aspect has_rect_contour mean_intensity ∧
      calculate_input_score regionEmpty2 aspect has_rect_contour mean_intensity ≤ 1) ∧
    (0 ≤ text_button_confidence match_score ∧ text_button_confidence match_score ≤ 1) ∧
    (0 ≤ label_input_confidence match_score ∧ label_input_confidence match_score ≤ 1) ∧
    (7/10 ≤ raw_score →
      0 ≤ template_confidence raw_score ∧ template_confidence raw_score ≤ 1) ∧
    (0 ≤ link_confidence ∧ link_confidence ≤ 1) ∧
    (0 ≤ icon_confidence ∧ icon_confidence ≤ 1) ∧
    (0 ≤ menu_item_confidence ∧ menu_item_confidence ≤ 1) := by
  refine ⟨estimate_confidence_bounds text engine_name,
    calculate_button_score_bounds regionEmpty edge_density std_dev w h,
    calculate_input_score_bounds regionEmpty2 aspect has_rect_contour mean_intensity,
    ⟨?_, ?_⟩, ⟨?_, ?_⟩, ?_, by norm_num [link_confidence],
    by norm_num [icon_confidence], by norm_num [menu_item_confidence]⟩
  · unfold text_button_confidence; nlinarith
  · unfold text_button_confidence; nlinarith
  · unfold label_input_confidence; nlinarith
  · unfold label_input_confidence; nlinarith
  · intro hth
    unfold template_confidence
    exact ⟨by linarith, hraw2⟩

/-- Witness for `C7_confidence_bounds` at concrete feature values. -/
theorem C7_confidence_bounds_witness :
    (0 ≤ estimate_confidence "hello".toList "paddleocr" ∧
      estimate_confidence "hello".toList "paddleocr" ≤ 1) ∧
    (0 ≤ calculate_button_score false (3/10) 10 50 30 ∧
      calculate_button_score false (3/10) 10 50 30 ≤ 1) ∧
    (0 ≤ calculate_input_score false 5 true 210 ∧
      calculate_input_score false 5 true 210 ≤ 1) ∧
    (0 ≤ text_button_confidence (4/5) ∧ text_button_confidence (4/5) ≤ 1) ∧
    (0 ≤ label_input_confidence (4/5) ∧ label_input_confidence (4/5) ≤ 1) ∧
    (7/10 ≤ (9/10 : ℚ) →
      0 ≤ template_confidence (9/10) ∧ template_confidence (9/10) ≤ 1) ∧
    (0 ≤ link_confidence ∧ link_confidence ≤ 1) ∧
    (0 ≤ icon_confidence ∧ icon_confidence ≤ 1) ∧
    (0 ≤ menu_item_confidence ∧ menu_item_confidence ≤ 1) :=
  C7_confidence_bounds "hello".toList "paddleocr" false false true (3/10) 10 5 210
    (4/5) (9/10) 50 30 (by norm_num) (by norm_num) (by norm_num)

/-! ## Theorems: action history bound (claim C8) -/

/-- Claim C8: after every `_record_action` call the history holds at most
1000 records, and appending to a 1000-element history (the 1001st record)
truncates it to exactly the most recent 500 entries, dropping the oldest
501. -/
theorem C8_history_capped (action_history : List OperationRecord)
    (record : OperationRecord) :
    (record_action action_history record).length ≤ 1000 ∧
    (action_history.length = 1000 →
      record_action action_history record = (action_history ++ [record]).drop 501 ∧
      (record_action action_history record).length = 500) := by
  constructor
  · unfold record_action
    dsimp only
    split_ifs with h
    · rw [List.length_drop]
      omega
    · rw [List.length_append] at h ⊢
      simp at h ⊢
      omega
  · intro hlen
    have hlen2 : (action_history ++ [record]).length = 1001 := by
      rw [List.length_append, hlen]; rfl
    unfold record_action
    dsimp only
    rw [if_pos (by omega), hlen2]
    refine ⟨rfl, ?_⟩
    rw [List.length_drop, hlen2]

/-- Witness for `C8_history_capped` at a concrete 1000-element history. -/
theorem C8_history_capped_witness :
    (record_action (List.replicate 1000 demoRecord) demoRecord).length ≤ 1000 ∧
    (record_action (List.replicate 1000 demoRecord) demoRecord =
      (List.replicate 1000 demoRecord ++ [demoRecord]).drop 501 ∧
      (record_action (List.replicate 1000 demoRecord) demoRecord).length = 500) := by
  have h := C8_history_capped (List.replicate 1000 demoRecord) demoRecord
  exact ⟨h.1, h.2 (by rw [List.length_replicate])⟩

/-! ## Theorems: screen capture validation (claim C9) -/

/-- Claim C9: whenever the requested region has a negative origin or
extends past the screen, `capture_region` returns the failure indicator
without issuing the external screenshot call; in particular the call with
x = −5, y = 0, any width and height fails for every screen size and
availability state.  The embedded function is total, so no exception
escapes. -/
theorem C9_capture_region_validates (visionAvailable : Bool)
    (screen_size : Option (Int × Int)) (screenshot : Int → Int → Int → Int → Option Frame)
    (x y width height screen_width screen_height : Int)
    (hsize : screen_size = some (screen_width, screen_height))
    (hbad : x < 0 ∨ y < 0 ∨ screen_width < x + width ∨ screen_height < y + height) :
    (capture_region visionAvailable screen_size screenshot x y width height =
      (none, false)) ∧
    (∀ (va : Bool) (sz : Option (Int × Int))
        (shot : Int → Int → Int → Int → Option Frame) (w h : Int),
      capture_region va sz shot (-5) 0 w h = (none, false)) := by
  constructor
  · unfold capture_region
    rw [hsize]
    by_cases hva : visionAvailable
    · rw [if_pos hva]
      dsimp only
      rw [if_pos hbad]
    · rw [if_neg hva]
  · intro va sz shot w h
    unfold capture_region
    by_cases hva : va
    · rw [if_pos hva]
      rcases sz with _ | ⟨sw, sh⟩
      · rfl
      · dsimp only
        rw [if_pos (by left; norm_num)]
    · rw [if_neg hva]

/-- Witness for `C9_capture_region_validates` on a 1920x1080 screen with the
region (−5, 0, 10, 10). -/
theorem C9_capture_region_validates_witness :
    (capture_region true (some (1920, 1080)) (fun _ _ _ _ => some ⟨10, 10⟩)
      (-5) 0 10 10 = (none, false)) ∧
    (∀ (va : Bool) (sz : Option (Int × Int))
        (shot : Int → Int → Int → Int → Option Frame) (w h : Int),
      capture_region va sz shot (-5) 0 w h = (none, false)) :=
  C9_capture_region_validates true (some (1920, 1080)) (fun _ _ _ _ => some ⟨10, 10⟩)
    (-5) 0 10 10 1920 1080 rfl (by norm_num)

/-- Witness for `C10_success_iff_text`: a single engine returning empty text
fails the whole run, which then returns exactly the failure record. -/
theorem C10_success_iff_text_witness :
    (extract_text ["A"] ["A"] ["A"] none cexOCRBehavior (fun _ => 1)
      (fun _ => ⟨0, 0, 0⟩)).1 = failExtractResult :=
  (C10_success_iff_text ["A"] ["A"] ["A"] none cexOCRBehavior (fun _ => 1)
    (fun _ => ⟨0, 0, 0⟩)).2 (by decide)
